import Mathlib

/-!
# Card-game backend (`main.go`): handlers over a Redis store

A shallow embedding of the six HTTP handlers of `main.go` and of the library
calls they make, followed by theorems about them.

Modelling conventions.

* A Go `string` is a Lean `String`.  The only delimiter the program uses is the
  one-byte `","`, so splitting by bytes and splitting by characters agree.
* The Redis database is a function from key to hash, a hash a function from
  field to stored string (an absent key is the hash without fields).
* Every call to the store takes a `fault : Option String`: `none` when the store
  answers, `some e` when the call fails with the error text `e`.  A failed call
  leaves the database as it was.
* A handler receives what the transport layer hands it (the outcome of decoding
  the JSON body, or the URL query values) and returns the response it writes
  together with the database afterwards.  Response headers and routing by HTTP
  method are not modelled.
* Go's `int` is taken to be 64 bits wide.
-/

namespace Backend

/-! ## Standard-library functions used by the handlers -/

namespace strings

/-- Cut a character sequence at every occurrence of `sep`.  The result always
has one more piece than there are separators. -/
def splitChars (sep : Char) : List Char → List (List Char)
  | [] => [[]]
  | c :: cs =>
    if c = sep then [] :: splitChars sep cs
    else
      match splitChars sep cs with
      | [] => [[c]]
      | piece :: rest => (c :: piece) :: rest

/-- Go `strings.Split(s, sep)` for a one-character separator: the substrings of
`s` between the separators; a string without separator gives the one-element
slice holding `s` itself. -/
def Split (s : String) (sep : Char) : List String :=
  (splitChars sep s.data).map String.mk

/-- Go `strings.Join(elems, sep)`: the elements concatenated with `sep` placed
between neighbours; the empty slice gives the empty string. -/
def Join : List String → String → String
  | [], _ => ""
  | [a], _ => a
  | a :: b :: rest, sep => a ++ sep ++ Join (b :: rest) sep

end strings

namespace strconv

/-- Width of Go's `int` in bits. -/
def intSize : Nat := 64

/-- Character of a decimal digit `d < 10`. -/
def digitChar (d : Nat) : Char := Char.ofNat (48 + d)

/-- Value of a decimal digit character, `none` for any other character. -/
def digitVal (c : Char) : Option Nat :=
  if 48 ≤ c.toNat ∧ c.toNat ≤ 57 then some (c.toNat - 48) else none

/-- Decimal digits of `n`, most significant first, put in front of `acc`.  The
loop of `formatBits` for base 10: peel the last digit off until nothing is left. -/
def fmtNat : Nat → Nat → List Char → List Char
  | 0, _, acc => acc
  | fuel + 1, n, acc =>
    if n / 10 = 0 then digitChar (n % 10) :: acc
    else fmtNat fuel (n / 10) (digitChar (n % 10) :: acc)

/-- Go `strconv.Itoa` (and `strconv.AppendInt(_, i, 10)`): the decimal text of
an integer, with a leading `-` for a negative one. -/
def Itoa : Int → String
  | Int.ofNat n => String.mk (fmtNat (n + 1) n [])
  | Int.negSucc n => String.mk ('-' :: fmtNat (n + 2) (n + 1) [])

/-- Read a run of decimal digits left to right, `n = n*10 + digit`; `none` at the
first character that is not a digit. -/
def parseDigits : List Char → Nat → Option Nat
  | [], acc => some acc
  | c :: cs, acc =>
    match digitVal c with
    | none => none
    | some d => parseDigits cs (acc * 10 + d)

/-- Sign and digit part of the text given to `Atoi`. -/
def splitSign : List Char → Bool × List Char
  | [] => (false, [])
  | c :: rest =>
    if c = '-' then (true, rest)
    else if c = '+' then (false, rest)
    else (false, c :: rest)

/-- Go `strconv.Atoi`: an optional sign followed by at least one decimal digit,
whose value fits an `int`.  `none` stands for a non-nil `error` (syntax or
range). -/
def Atoi (s : String) : Option Int :=
  match splitSign s.data with
  | (_, []) => none
  | (neg, ds) =>
    match parseDigits ds 0 with
    | none => none
    | some n =>
      let v : Int := if neg then -(n : Int) else (n : Int)
      if -(2 : Int) ^ (intSize - 1) ≤ v ∧ v < (2 : Int) ^ (intSize - 1) then some v else none

end strconv

/-! ## The Redis client -/

/-- One Redis hash: field to stored string. -/
abbrev Hash := String → Option String

/-- The database: key to hash. -/
abbrev Redis := String → Hash

/-- The database with no key at all. -/
def emptyRedis : Redis := fun _ _ => none

/-- A value handed to `HSet`; the client writes an `int` as its decimal text. -/
inductive Arg where
  | str (s : String)
  | int (i : Int)

/-- Text the client sends for an argument. -/
def Arg.encode : Arg → String
  | Arg.str s => s
  | Arg.int i => strconv.Itoa i

/-- Outcome of `HGet(...).Result()`: the value, `redis.Nil` for an absent field,
or another error. -/
inductive Reply where
  | ok (value : String)
  | nil
  | err (msg : String)
  deriving DecidableEq

/-- Go `rdb.HSet(ctx, key, field, value).Err()`: the error (if any) and the
database afterwards. -/
def HSet (fault : Option String) (rdb : Redis) (key field : String) (value : Arg) :
    Option String × Redis :=
  match fault with
  | some e => (some e, rdb)
  | none =>
    (none, fun k => if k = key then (fun f => if f = field then some value.encode else rdb k f)
                    else rdb k)

/-- Go `rdb.HGet(ctx, key, field).Result()`. -/
def HGet (fault : Option String) (rdb : Redis) (key field : String) : Reply :=
  match fault with
  | some e => Reply.err e
  | none =>
    match rdb key field with
    | some v => Reply.ok v
    | none => Reply.nil

/-- Go `rdb.HGetAll(ctx, key).Result()`: the whole hash, or an error. -/
def HGetAll (fault : Option String) (rdb : Redis) (key : String) : Except String Hash :=
  match fault with
  | some e => Except.error e
  | none => Except.ok (rdb key)

/-! ## Requests and responses -/

/-- What a handler writes as body: text, or a string-to-string map sent through
`json.Marshal` (kept as the map; its JSON text is not modelled). -/
inductive Body where
  | text (s : String)
  | json (m : Hash)

/-- Status code and body written to the `http.ResponseWriter`. -/
structure Response where
  status : Nat
  body : Body

def StatusOK : Nat := 200
def StatusBadRequest : Nat := 400
def StatusNotFound : Nat := 404
def StatusInternalServerError : Nat := 500

/-- Go `http.Error(w, msg, code)`: the status code and the message followed by a
newline. -/
def httpError (msg : String) (code : Nat) : Response :=
  { status := code, body := Body.text (msg ++ "\n") }

/-- A decoded JSON value, as `encoding/json` stores it in an `interface{}`. -/
inductive JsonValue where
  | null
  | bool (b : Bool)
  | number (x : ℚ)
  | string (s : String)
  | array (elems : List JsonValue)
  | object (fields : List (String × JsonValue))

/-- Go `map[string]string` as decoded from a request body. -/
abbrev StringMap := String → Option String

/-- Go `m[key]` on a `map[string]string`: the zero value `""` for a missing key. -/
def StringMap.index (m : StringMap) (key : String) : String := (m key).getD ""

/-- Go `map[string]interface{}` as decoded from a request body. -/
abbrev AnyMap := String → Option JsonValue

/-- Go `m[key].(string)` with the comma-ok form: the string and `true`, or `""`
and `false` when the key is missing or holds another kind of value. -/
def AnyMap.assertString (m : AnyMap) (key : String) : String × Bool :=
  match m key with
  | some (JsonValue.string s) => (s, true)
  | _ => ("", false)

/-- Go `url.Values`: query key to its values. -/
abbrev Values := String → List String

/-- Go `url.Values.Get`: the first value of the key, `""` when there is none. -/
def Values.Get (v : Values) (key : String) : String := (v key).headD ""

/-! ## The handlers -/

/-- `registerUserHandler`: `decoded` is the outcome of
`json.NewDecoder(r.Body).Decode(&user)`. -/
def registerUserHandler (setFault : Option String) (rdb : Redis)
    (decoded : Except String StringMap) : Response × Redis :=
  match decoded with
  | Except.error e => (httpError e StatusBadRequest, rdb)
  | Except.ok user =>
    let username := user.index "username"
    if username = "" then (httpError "Username is required" StatusBadRequest, rdb)
    else
      match HSet setFault rdb "users" username (Arg.int 0) with
      | (some e, rdb') => (httpError e StatusInternalServerError, rdb')
      | (none, rdb') => ({ status := StatusOK, body := Body.text "User registered successfully" }, rdb')

/-- `loginUserHandler`. -/
def loginUserHandler (getFault : Option String) (rdb : Redis)
    (decoded : Except String StringMap) : Response × Redis :=
  match decoded with
  | Except.error e => (httpError e StatusBadRequest, rdb)
  | Except.ok user =>
    let username := user.index "username"
    if username = "" then (httpError "Username is required" StatusBadRequest, rdb)
    else
      match HGet getFault rdb "users" username with
      | Reply.nil => (httpError "User not found" StatusNotFound, rdb)
      | Reply.err e => (httpError e StatusInternalServerError, rdb)
      | Reply.ok points =>
        ({ status := StatusOK, body := Body.text ("Login successful, points: " ++ points) }, rdb)

/-- The deck `startGameHandler` deals. -/
def startDeck : List String := ["Cat", "Defuse", "Shuffle", "ExplodingKitten", "Cat"]

/-- `startGameHandler`: `query` is `r.URL.Query()`. -/
def startGameHandler (setFault : Option String) (rdb : Redis) (query : Values) :
    Response × Redis :=
  let username := query.Get "username"
  if username = "" then (httpError "Username is required" StatusBadRequest, rdb)
  else
    let deck := startDeck
    match HSet setFault rdb "games" username (Arg.str (strings.Join deck ",")) with
    | (some e, rdb') => (httpError e StatusInternalServerError, rdb')
    | (none, rdb') => ({ status := StatusOK, body := Body.text "Game started successfully" }, rdb')

/-- `drawCardHandler`. -/
def drawCardHandler (getFault setFault : Option String) (rdb : Redis) (query : Values) :
    Response × Redis :=
  let username := query.Get "username"
  if username = "" then (httpError "Username is required" StatusBadRequest, rdb)
  else
    match HGet getFault rdb "games" username with
    | Reply.nil => (httpError "Game not found" StatusNotFound, rdb)
    | Reply.err e => (httpError e StatusInternalServerError, rdb)
    | Reply.ok deckString =>
      match strings.Split deckString ',' with
      | [] => (httpError "No cards left" StatusBadRequest, rdb)
      | card :: deck =>
        match HSet setFault rdb "games" username (Arg.str (strings.Join deck ",")) with
        | (some e, rdb') => (httpError e StatusInternalServerError, rdb')
        | (none, rdb') => ({ status := StatusOK, body := Body.text ("Card drawn: " ++ card) }, rdb')

/-- `getLeaderboardHandler`.  `json.Marshal` of a `map[string]string` does not
fail, so its error branch does not appear. -/
def getLeaderboardHandler (getFault : Option String) (rdb : Redis) : Response × Redis :=
  match HGetAll getFault rdb "users" with
  | Except.error e => (httpError e StatusInternalServerError, rdb)
  | Except.ok leaderboard => ({ status := StatusOK, body := Body.json leaderboard }, rdb)

/-- `updateLeaderboardHandler`. -/
def updateLeaderboardHandler (setFault : Option String) (rdb : Redis)
    (decoded : Except String AnyMap) : Response × Redis :=
  match decoded with
  | Except.error e => (httpError e StatusBadRequest, rdb)
  | Except.ok user =>
    match user.assertString "username" with
    | (username, ok) =>
      if !ok || username = "" then (httpError "Username is required" StatusBadRequest, rdb)
      else
        match user.assertString "points" with
        | (_, false) => (httpError "Points must be an integer" StatusBadRequest, rdb)
        | (pointsStr, true) =>
          match strconv.Atoi pointsStr with
          | none => (httpError "Invalid points format" StatusBadRequest, rdb)
          | some points =>
            match HSet setFault rdb "users" username (Arg.int points) with
            | (some e, rdb') => (httpError e StatusInternalServerError, rdb')
            | (none, rdb') =>
              ({ status := StatusOK, body := Body.text "Leaderboard updated successfully" }, rdb')

/-! ## Request builders and iterated draws used to state the properties -/

/-- The query `?username=u`. -/
def userQuery (u : String) : Values := fun k => if k = "username" then [u] else []

/-- The decoded body `{"username": u}`. -/
def userBody (u : String) : StringMap := fun k => if k = "username" then some u else none

/-- The decoded body `{"username": u, "points": points}`. -/
def scoreBody (u : String) (points : JsonValue) : AnyMap :=
  fun k => if k = "username" then some (JsonValue.string u)
           else if k = "points" then some points else none

/-- The responses of `n` draws made one after the other with the same query, the
store answering every call, and the database after the last of them. -/
def drawMany : Nat → Redis → Values → List Response × Redis
  | 0, rdb, _ => ([], rdb)
  | n + 1, rdb, query =>
    match drawCardHandler none none rdb query with
    | (resp, rdb1) =>
      match drawMany n rdb1 query with
      | (resps, rdb2) => (resp :: resps, rdb2)

/-! ## Facts about the library functions -/

theorem splitChars_ne_nil (sep : Char) (cs : List Char) : strings.splitChars sep cs ≠ [] := by
  induction cs with
  | nil => simp [strings.splitChars]
  | cons c cs ih =>
    unfold strings.splitChars
    split
    · simp
    · split <;> simp

theorem splitChars_of_not_mem (sep : Char) (a : List Char) (h : sep ∉ a) :
    strings.splitChars sep a = [a] := by
  induction a with
  | nil => rfl
  | cons c cs ih =>
    have hc : c ≠ sep := fun e => h (by simp [e])
    have hcs : sep ∉ cs := fun m => h (List.mem_cons_of_mem _ m)
    simp [strings.splitChars, hc, ih hcs]

theorem splitChars_append (sep : Char) (a rest : List Char) (h : sep ∉ a) :
    strings.splitChars sep (a ++ sep :: rest) = a :: strings.splitChars sep rest := by
  induction a with
  | nil => simp [strings.splitChars]
  | cons c cs ih =>
    have hc : c ≠ sep := fun e => h (by simp [e])
    have hcs : sep ∉ cs := fun m => h (List.mem_cons_of_mem _ m)
    simp [strings.splitChars, hc, ih hcs]

theorem Split_ne_nil (s : String) (sep : Char) : strings.Split s sep ≠ [] := by
  simp [strings.Split, splitChars_ne_nil]

theorem Split_Join (c : String) (cs : List String)
    (h : ∀ x ∈ c :: cs, ',' ∉ x.data) :
    strings.Split (strings.Join (c :: cs) ",") ',' = c :: cs := by
  induction cs generalizing c with
  | nil =>
    have hc : ',' ∉ c.data := h c (by simp)
    simp [strings.Split, strings.Join, splitChars_of_not_mem _ _ hc]
  | cons d ds ih =>
    have hc : ',' ∉ c.data := h c (by simp)
    have hrest : ∀ x ∈ d :: ds, ',' ∉ x.data := fun x hx => h x (List.mem_cons_of_mem _ hx)
    have key := ih d hrest
    simp only [strings.Split] at key ⊢
    have hdata : (strings.Join (c :: d :: ds) ",").data
        = c.data ++ ',' :: (strings.Join (d :: ds) ",").data := by
      simp [strings.Join, String.data_append]
    rw [hdata, splitChars_append _ _ _ hc, List.map_cons, key]


theorem digitVal_digitChar (d : Nat) (h : d < 10) :
    strconv.digitVal (strconv.digitChar d) = some d := by
  interval_cases d <;> decide

theorem digitChar_ne_sign (d : Nat) (h : d < 10) :
    strconv.digitChar d ≠ '-' ∧ strconv.digitChar d ≠ '+' := by
  interval_cases d <;> decide

theorem fmtNat_head_aux (fuel n d : Nat) (acc : List Char) (hd : d < 10) :
    ∃ e, e < 10 ∧ ∃ t, strconv.fmtNat fuel n (strconv.digitChar d :: acc) = strconv.digitChar e :: t := by
  induction fuel generalizing n d acc with
  | zero => exact ⟨d, hd, acc, rfl⟩
  | succ fuel ih =>
    unfold strconv.fmtNat
    split
    · exact ⟨n % 10, Nat.mod_lt _ (by decide), _, rfl⟩
    · exact ih _ _ _ (Nat.mod_lt _ (by decide))

theorem fmtNat_head (fuel n : Nat) :
    ∃ e, e < 10 ∧ ∃ t, strconv.fmtNat (fuel + 1) n [] = strconv.digitChar e :: t := by
  unfold strconv.fmtNat
  split
  · exact ⟨n % 10, Nat.mod_lt _ (by decide), _, rfl⟩
  · exact fmtNat_head_aux _ _ _ _ (Nat.mod_lt _ (by decide))

theorem parseDigits_fmtNat (fuel n : Nat) (acc : List Char) (h : n < fuel) :
    ∃ k, ∀ a, strconv.parseDigits (strconv.fmtNat fuel n acc) a
      = strconv.parseDigits acc (a * 10 ^ k + n) := by
  induction fuel generalizing n acc with
  | zero => omega
  | succ fuel ih =>
    unfold strconv.fmtNat
    split
    · rename_i h0
      refine ⟨1, fun a => ?_⟩
      have hn : n % 10 = n := by omega
      have hlt : n < 10 := by omega
      simp [strconv.parseDigits, hn, digitVal_digitChar n hlt]
    · rename_i h0
      have hlt : n / 10 < fuel := by omega
      obtain ⟨k, hk⟩ := ih (n / 10) (strconv.digitChar (n % 10) :: acc) hlt
      refine ⟨k + 1, fun a => ?_⟩
      rw [hk a]
      simp only [strconv.parseDigits, digitVal_digitChar _ (Nat.mod_lt n (by decide))]
      congr 1
      have := Nat.div_add_mod n 10
      rw [pow_succ]
      nlinarith [Nat.div_add_mod n 10]

theorem Atoi_Itoa (i : Int) (hlo : -(2 : Int) ^ 63 ≤ i) (hhi : i < (2 : Int) ^ 63) :
    strconv.Atoi (strconv.Itoa i) = some i := by
  cases i with
  | ofNat n =>
    obtain ⟨e, he, t, ht⟩ := fmtNat_head n n
    obtain ⟨k, hk⟩ := parseDigits_fmtNat (n + 1) n [] (by omega)
    have hp := hk 0
    rw [ht] at hp
    have hs := digitChar_ne_sign e he
    simp only [strconv.Atoi, strconv.Itoa, ht, strconv.splitSign, hs.1, hs.2, if_false, hp]
    simp [strconv.parseDigits, strconv.intSize]
    constructor
    · simpa using hlo
    · simpa using hhi
  | negSucc n =>
    obtain ⟨e, he, t, ht⟩ := fmtNat_head (n + 1) (n + 1)
    obtain ⟨k, hk⟩ := parseDigits_fmtNat (n + 2) (n + 1) [] (by omega)
    have hp := hk 0
    rw [ht] at hp
    simp only [strconv.Atoi, strconv.Itoa, ht, strconv.splitSign, if_true, hp]
    simp [strconv.parseDigits, strconv.intSize]
    refine ⟨⟨?_, ?_⟩, ?_⟩
    · have := hlo
      rw [Int.negSucc_eq] at this
      omega
    · omega
    · rw [Int.negSucc_eq]; omega


/-! ## Facts about the store and single handler steps -/

theorem HSet_none_same (rdb : Redis) (key field : String) (value : Arg) :
    (HSet none rdb key field value).2 key field = some value.encode := by
  simp [HSet]

theorem HSet_none_other_field (rdb : Redis) (key field other : String) (value : Arg)
    (h : other ≠ field) :
    (HSet none rdb key field value).2 key other = rdb key other := by
  simp [HSet, h]

theorem HSet_none_other_key (rdb : Redis) (key key2 field : String) (value : Arg)
    (h : key2 ≠ key) :
    (HSet none rdb key field value).2 key2 = rdb key2 := by
  simp [HSet, h]

theorem startGameHandler_ok (rdb : Redis) (query : Values) (h : query.Get "username" ≠ "") :
    startGameHandler none rdb query
      = ({ status := StatusOK, body := Body.text "Game started successfully" },
         (HSet none rdb "games" (query.Get "username") (Arg.str (strings.Join startDeck ","))).2) := by
  simp [startGameHandler, h, HSet]

theorem drawCardHandler_front (rdb : Redis) (query : Values) (c : String) (cs : List String)
    (hu : query.Get "username" ≠ "") (hfree : ∀ x ∈ c :: cs, ',' ∉ x.data)
    (hdeck : rdb "games" (query.Get "username") = some (strings.Join (c :: cs) ",")) :
    drawCardHandler none none rdb query
      = ({ status := StatusOK, body := Body.text ("Card drawn: " ++ c) },
         (HSet none rdb "games" (query.Get "username") (Arg.str (strings.Join cs ","))).2) := by
  simp [drawCardHandler, hu, HGet, hdeck, Split_Join c cs hfree, HSet]

theorem startDeck_comma_free : ∀ x ∈ startDeck, ',' ∉ x.data := by decide

theorem comma_free_tail {c : String} {cs : List String}
    (h : ∀ x ∈ c :: cs, ',' ∉ x.data) : ∀ x ∈ cs, ',' ∉ x.data :=
  fun x hx => h x (List.mem_cons_of_mem _ hx)

/-- Drawing a whole comma-free deck card by card returns its cards in order and
leaves the empty serialization. -/
theorem drawMany_deck (deck : List String) (rdb : Redis) (query : Values)
    (hu : query.Get "username" ≠ "") (hfree : ∀ x ∈ deck, ',' ∉ x.data)
    (hdeck : rdb "games" (query.Get "username") = some (strings.Join deck ",")) :
    (drawMany deck.length rdb query).1
        = deck.map (fun c => { status := StatusOK, body := Body.text ("Card drawn: " ++ c) }) ∧
      (drawMany deck.length rdb query).2 "games" (query.Get "username") = some (strings.Join [] ",") := by
  induction deck generalizing rdb with
  | nil => exact ⟨rfl, hdeck⟩
  | cons c cs ih =>
    have step := drawCardHandler_front rdb query c cs hu hfree hdeck
    have hnext := HSet_none_same rdb "games" (query.Get "username") (Arg.str (strings.Join cs ","))
    have := ih _ (comma_free_tail hfree) hnext
    simp only [List.length_cons, drawMany, step, List.map_cons]
    exact ⟨by rw [this.1], this.2⟩


/-! ## Deck session -/

/-- C3: for a non-empty username and any prior database, a start whose store
write succeeds answers 200 and leaves the `games` field of that username equal to
the comma-joined text of `[Cat, Defuse, Shuffle, ExplodingKitten, Cat]`, which
splits back into exactly those five cards in that order. -/
theorem start_writes_fixed_deck (rdb : Redis) (query : Values) (u : String)
    (hq : query.Get "username" = u) (hu : u ≠ "") :
    (startGameHandler none rdb query).1.status = StatusOK ∧
    (startGameHandler none rdb query).2 "games" u
        = some (strings.Join ["Cat", "Defuse", "Shuffle", "ExplodingKitten", "Cat"] ",") ∧
    (startGameHandler none rdb query).2 "games" u = some "Cat,Defuse,Shuffle,ExplodingKitten,Cat" ∧
    strings.Split "Cat,Defuse,Shuffle,ExplodingKitten,Cat" ','
        = ["Cat", "Defuse", "Shuffle", "ExplodingKitten", "Cat"] := by
  subst hq
  rw [startGameHandler_ok rdb query hu]
  refine ⟨rfl, ?_, ?_, by decide⟩
  · exact HSet_none_same rdb "games" (query.Get "username") (Arg.str (strings.Join startDeck ","))
  · show (HSet none rdb "games" (query.Get "username") (Arg.str (strings.Join startDeck ","))).2
        "games" (query.Get "username") = _
    rw [HSet_none_same]
    decide

/-- Witness of C3 on a database where `alice` holds a partly drawn deck. -/
theorem start_writes_fixed_deck_witness :
    (startGameHandler none (HSet none emptyRedis "games" "alice" (Arg.str "Shuffle,Cat")).2
        (userQuery "alice")).2 "games" "alice"
      = some "Cat,Defuse,Shuffle,ExplodingKitten,Cat" :=
  (start_writes_fixed_deck (HSet none emptyRedis "games" "alice" (Arg.str "Shuffle,Cat")).2
    (userQuery "alice") "alice" (by decide) (by decide)).2.2.1

/-- C4: for a non-empty username without a `games` field, a draw (the store
answering the read) is rejected with 404 "Game not found", names no card, and
returns the database unchanged, whatever the write would have done. -/
theorem draw_without_session_not_found (setFault : Option String) (rdb : Redis)
    (query : Values) (u : String)
    (hq : query.Get "username" = u) (hu : u ≠ "") (hnone : rdb "games" u = none) :
    drawCardHandler none setFault rdb query = (httpError "Game not found" StatusNotFound, rdb) ∧
    (drawCardHandler none setFault rdb query).2 "games" u = none := by
  subst hq
  simp [drawCardHandler, hu, HGet, hnone]

/-- Witness of C4: `bob` draws on the empty database. -/
theorem draw_without_session_not_found_witness :
    (drawCardHandler none none emptyRedis (userQuery "bob")).1.status = 404 :=
  congrArg (fun r => r.1.status)
    (draw_without_session_not_found none emptyRedis (userQuery "bob") "bob"
      (by decide) (by decide) rfl).1

/-- C2: for a non-empty username whose `games` field holds the comma-joined text
of a non-empty list `c :: cs` of comma-free card names, a draw (store answering
read and write) answers 200 with card `c` and leaves the field equal to the
comma-joined text of `cs`; and after a start, five draws in a row return Cat,
Defuse, Shuffle, ExplodingKitten, Cat in that order. -/
theorem draw_returns_front_card (rdb : Redis) (query : Values) (u : String)
    (c : String) (cs : List String)
    (hq : query.Get "username" = u) (hu : u ≠ "")
    (hfree : ∀ x ∈ c :: cs, ',' ∉ x.data)
    (hdeck : rdb "games" u = some (strings.Join (c :: cs) ",")) :
    (drawCardHandler none none rdb query).1.status = StatusOK ∧
    (drawCardHandler none none rdb query).1.body = Body.text ("Card drawn: " ++ c) ∧
    (drawCardHandler none none rdb query).2 "games" u = some (strings.Join cs ",") ∧
    (drawMany 5 (startGameHandler none rdb query).2 query).1.map (fun r => r.body)
      = [Body.text "Card drawn: Cat", Body.text "Card drawn: Defuse",
         Body.text "Card drawn: Shuffle", Body.text "Card drawn: ExplodingKitten",
         Body.text "Card drawn: Cat"] := by
  subst hq
  rw [drawCardHandler_front rdb query c cs hu hfree hdeck]
  refine ⟨rfl, rfl,
    HSet_none_same rdb "games" (query.Get "username") (Arg.str (strings.Join cs ",")), ?_⟩
  rw [startGameHandler_ok rdb query hu]
  have h5 := (drawMany_deck startDeck _ query hu startDeck_comma_free
    (HSet_none_same rdb "games" (query.Get "username") (Arg.str (strings.Join startDeck ",")))).1
  have hlen : startDeck.length = 5 := rfl
  rw [hlen] at h5
  rw [h5]
  simp [startDeck]

/-- Witness of C2: `alice` holds `Shuffle,Cat` and draws `Shuffle`. -/
theorem draw_returns_front_card_witness :
    (drawCardHandler none none (HSet none emptyRedis "games" "alice" (Arg.str "Shuffle,Cat")).2
        (userQuery "alice")).1.body = Body.text "Card drawn: Shuffle" ∧
    (drawCardHandler none none (HSet none emptyRedis "games" "alice" (Arg.str "Shuffle,Cat")).2
        (userQuery "alice")).2 "games" "alice" = some "Cat" :=
  have h := draw_returns_front_card (HSet none emptyRedis "games" "alice" (Arg.str "Shuffle,Cat")).2
    (userQuery "alice") "alice" "Shuffle" ["Cat"] (by decide) (by decide) (by decide) (by decide)
  ⟨h.2.1, h.2.2.1⟩

/-- C1 (the code departs from it): after a start and five draws the stored deck
of `alice` is the empty text, and the sixth draw is answered 200 with the body
"Card drawn: " (an empty card name), not with the 400 "No cards left". -/
theorem sixth_draw_succeeds_with_empty_card :
    (drawMany 5 (startGameHandler none emptyRedis (userQuery "alice")).2 (userQuery "alice")).2
        "games" "alice" = some "" ∧
    (drawCardHandler none none
        (drawMany 5 (startGameHandler none emptyRedis (userQuery "alice")).2 (userQuery "alice")).2
        (userQuery "alice")).1.status = 200 ∧
    (drawCardHandler none none
        (drawMany 5 (startGameHandler none emptyRedis (userQuery "alice")).2 (userQuery "alice")).2
        (userQuery "alice")).1.body = Body.text "Card drawn: " := by
  refine ⟨by decide, by decide, ?_⟩
  rfl


/-! ## Account registry and leaderboard -/

theorem registerUserHandler_ok (rdb : Redis) (user : StringMap) (h : user.index "username" ≠ "") :
    registerUserHandler none rdb (Except.ok user)
      = ({ status := StatusOK, body := Body.text "User registered successfully" },
         (HSet none rdb "users" (user.index "username") (Arg.int 0)).2) := by
  simp [registerUserHandler, h, HSet]

theorem loginUserHandler_found (rdb : Redis) (user : StringMap) (v : String)
    (h : user.index "username" ≠ "") (hv : rdb "users" (user.index "username") = some v) :
    loginUserHandler none rdb (Except.ok user)
      = ({ status := StatusOK, body := Body.text ("Login successful, points: " ++ v) }, rdb) := by
  simp [loginUserHandler, h, HGet, hv]

theorem loginUserHandler_absent (rdb : Redis) (user : StringMap)
    (h : user.index "username" ≠ "") (hv : rdb "users" (user.index "username") = none) :
    loginUserHandler none rdb (Except.ok user)
      = (httpError "User not found" StatusNotFound, rdb) := by
  simp [loginUserHandler, h, HGet, hv]

theorem updateLeaderboardHandler_ok (rdb : Redis) (user : AnyMap) (u s : String) (p : Int)
    (hname : user "username" = some (JsonValue.string u)) (hu : u ≠ "")
    (hpts : user "points" = some (JsonValue.string s)) (hp : strconv.Atoi s = some p) :
    updateLeaderboardHandler none rdb (Except.ok user)
      = ({ status := StatusOK, body := Body.text "Leaderboard updated successfully" },
         (HSet none rdb "users" u (Arg.int p)).2) := by
  simp [updateLeaderboardHandler, AnyMap.assertString, hname, hu, hpts, hp, HSet]

theorem Atoi_range (s : String) (p : Int) (h : strconv.Atoi s = some p) :
    -(2 : Int) ^ 63 ≤ p ∧ p < (2 : Int) ^ 63 := by
  unfold strconv.Atoi at h
  split at h
  · simp at h
  · split at h
    · simp at h
    · rename_i _ neg ds _ _ _ n _
      by_cases hneg : neg = true
      · simp [strconv.intSize, hneg] at h
        obtain ⟨⟨a, b⟩, rfl⟩ := h
        constructor <;> norm_num <;> omega
      · simp [strconv.intSize, hneg] at h
        obtain ⟨⟨a, b⟩, rfl⟩ := h
        constructor <;> norm_num <;> omega

/-- C5: for a non-empty username and any prior database, a successful
registration followed by a login answers 200 with point total `0`; and when an
accepted score update to `p` comes in between (after which a login shows `p`), a
second registration followed by a login shows `0` again. -/
theorem register_then_login_zero (rdb : Redis) (reg login : StringMap) (upd : AnyMap)
    (u s : String) (p : Int)
    (hreg : reg.index "username" = u) (hlogin : login.index "username" = u) (hu : u ≠ "")
    (hname : upd "username" = some (JsonValue.string u))
    (hpts : upd "points" = some (JsonValue.string s)) (hp : strconv.Atoi s = some p) :
    (registerUserHandler none rdb (Except.ok reg)).1.status = StatusOK ∧
    (loginUserHandler none (registerUserHandler none rdb (Except.ok reg)).2 (Except.ok login)).1.status
        = StatusOK ∧
    (loginUserHandler none (registerUserHandler none rdb (Except.ok reg)).2 (Except.ok login)).1.body
        = Body.text "Login successful, points: 0" ∧
    (loginUserHandler none
        (updateLeaderboardHandler none (registerUserHandler none rdb (Except.ok reg)).2
          (Except.ok upd)).2 (Except.ok login)).1.body
        = Body.text ("Login successful, points: " ++ strconv.Itoa p) ∧
    (loginUserHandler none
        (registerUserHandler none
          (updateLeaderboardHandler none (registerUserHandler none rdb (Except.ok reg)).2
            (Except.ok upd)).2 (Except.ok reg)).2 (Except.ok login)).1.body
        = Body.text "Login successful, points: 0" := by
  have hr : reg.index "username" ≠ "" := by rw [hreg]; exact hu
  have hl : login.index "username" ≠ "" := by rw [hlogin]; exact hu
  have zero : ∀ db : Redis,
      loginUserHandler none (registerUserHandler none db (Except.ok reg)).2 (Except.ok login)
        = ({ status := StatusOK, body := Body.text "Login successful, points: 0" },
           (HSet none db "users" u (Arg.int 0)).2) := by
    intro db
    rw [registerUserHandler_ok db reg hr, hreg]
    have hv : (HSet none db "users" u (Arg.int 0)).2 "users" (login.index "username")
        = some "0" := by
      rw [hlogin, HSet_none_same]; rfl
    rw [loginUserHandler_found _ login "0" hl hv]
    rfl
  refine ⟨?_, ?_, ?_, ?_, ?_⟩
  · rw [registerUserHandler_ok rdb reg hr]
  · rw [zero rdb]
  · rw [zero rdb]
  · rw [updateLeaderboardHandler_ok _ upd u s p hname hu hpts hp]
    have hv : (HSet none (registerUserHandler none rdb (Except.ok reg)).2 "users" u (Arg.int p)).2
        "users" (login.index "username") = some (strconv.Itoa p) := by
      rw [hlogin, HSet_none_same]; rfl
    rw [loginUserHandler_found _ login _ hl hv]
  · rw [zero]

/-- Witness of C5: `alice` registers, is set to 42, registers again, logs in. -/
theorem register_then_login_zero_witness :
    (loginUserHandler none
        (registerUserHandler none
          (updateLeaderboardHandler none
            (registerUserHandler none emptyRedis (Except.ok (userBody "alice"))).2
            (Except.ok (scoreBody "alice" (JsonValue.string "42")))).2
          (Except.ok (userBody "alice"))).2
        (Except.ok (userBody "alice"))).1.body
      = Body.text "Login successful, points: 0" :=
  (register_then_login_zero emptyRedis (userBody "alice") (userBody "alice")
    (scoreBody "alice" (JsonValue.string "42")) "alice" "42" 42
    (by decide) (by decide) (by decide) rfl rfl (by decide)).2.2.2.2

/-- C7: for a non-empty username and a store that answers, a login is rejected
with 404 "User not found" exactly when `users` has no field for the name, and
otherwise answers 200 with the stored point total; either way the database is
returned unchanged. -/
theorem login_not_found_iff_absent (rdb : Redis) (user : StringMap) (u : String)
    (hq : user.index "username" = u) (hu : u ≠ "") :
    ((loginUserHandler none rdb (Except.ok user)).1.status = StatusNotFound ↔ rdb "users" u = none) ∧
    (rdb "users" u = none →
      (loginUserHandler none rdb (Except.ok user)).1 = httpError "User not found" StatusNotFound) ∧
    (∀ v, rdb "users" u = some v →
      (loginUserHandler none rdb (Except.ok user)).1
        = { status := StatusOK, body := Body.text ("Login successful, points: " ++ v) }) ∧
    (loginUserHandler none rdb (Except.ok user)).2 = rdb := by
  subst hq
  cases hv : rdb "users" (user.index "username") with
  | none =>
    rw [loginUserHandler_absent rdb user hu hv]
    simp [httpError]
  | some v =>
    rw [loginUserHandler_found rdb user v hu hv]
    simp [StatusOK, StatusNotFound]

/-- Witness of C7: `bob` is unknown to the empty database. -/
theorem login_not_found_iff_absent_witness :
    (loginUserHandler none emptyRedis (Except.ok (userBody "bob"))).1
      = httpError "User not found" StatusNotFound :=
  (login_not_found_iff_absent emptyRedis (userBody "bob") "bob" (by decide) (by decide)).2.1 rfl


/-- C6: whatever the database and whatever the store would answer, each of the
five handlers that take a username rejects an empty (or absent) one with 400
"Username is required" and returns the database unchanged; the score update
does so too when its `username` is missing or is not a JSON string. -/
theorem empty_username_rejected (fault fault2 : Option String) (rdb : Redis)
    (user : StringMap) (query : Values) (upd : AnyMap)
    (huser : user.index "username" = "") (hquery : query.Get "username" = "")
    (hupd : ∀ s, upd "username" = some (JsonValue.string s) → s = "") :
    registerUserHandler fault rdb (Except.ok user)
        = (httpError "Username is required" StatusBadRequest, rdb) ∧
    loginUserHandler fault rdb (Except.ok user)
        = (httpError "Username is required" StatusBadRequest, rdb) ∧
    startGameHandler fault rdb query
        = (httpError "Username is required" StatusBadRequest, rdb) ∧
    drawCardHandler fault fault2 rdb query
        = (httpError "Username is required" StatusBadRequest, rdb) ∧
    updateLeaderboardHandler fault rdb (Except.ok upd)
        = (httpError "Username is required" StatusBadRequest, rdb) := by
  refine ⟨?_, ?_, ?_, ?_, ?_⟩
  · simp [registerUserHandler, huser]
  · simp [loginUserHandler, huser]
  · simp [startGameHandler, hquery]
  · simp [drawCardHandler, hquery]
  · cases hname : upd "username" with
    | none => simp [updateLeaderboardHandler, AnyMap.assertString, hname]
    | some v =>
      cases v with
      | string s =>
        have hs := hupd s hname
        subst hs
        simp [updateLeaderboardHandler, AnyMap.assertString, hname]
      | _ => simp [updateLeaderboardHandler, AnyMap.assertString, hname]

/-- Witness of C6: the store is down, the body is `{}`, the query has no
`username`, and the update carries the number 7 as `username`. -/
theorem empty_username_rejected_witness :
    (registerUserHandler (some "down") emptyRedis (Except.ok (fun _ => none))).1.status = 400 ∧
    (updateLeaderboardHandler (some "down") emptyRedis
        (Except.ok (fun k => if k = "username" then some (JsonValue.number 7) else none))).1.status
      = 400 :=
  have h := empty_username_rejected (some "down") (some "down") emptyRedis (fun _ => none)
    (fun _ => []) (fun k => if k = "username" then some (JsonValue.number 7) else none)
    rfl rfl (by intro s hs; simp at hs)
  ⟨congrArg (fun r => r.1.status) h.1, congrArg (fun r => r.1.status) h.2.2.2.2⟩

/-- C8: for a non-empty username and any prior database, after an accepted score
update to `p` the leaderboard maps the name to the decimal text of `p` (which
reads back as `p`), after a further accepted update to `q` it maps the name to
the decimal text of `q`, and every other name has the entry it had before. -/
theorem update_score_overwrites (rdb : Redis) (upd1 upd2 : AnyMap) (u s t : String) (p q : Int)
    (hu : u ≠ "")
    (hname1 : upd1 "username" = some (JsonValue.string u))
    (hpts1 : upd1 "points" = some (JsonValue.string s)) (hp : strconv.Atoi s = some p)
    (hname2 : upd2 "username" = some (JsonValue.string u))
    (hpts2 : upd2 "points" = some (JsonValue.string t)) (hq : strconv.Atoi t = some q) :
    ∃ m0 m1 m2 : Hash,
      (getLeaderboardHandler none rdb).1 = { status := StatusOK, body := Body.json m0 } ∧
      (getLeaderboardHandler none (updateLeaderboardHandler none rdb (Except.ok upd1)).2).1
        = { status := StatusOK, body := Body.json m1 } ∧
      (getLeaderboardHandler none
          (updateLeaderboardHandler none (updateLeaderboardHandler none rdb (Except.ok upd1)).2
            (Except.ok upd2)).2).1
        = { status := StatusOK, body := Body.json m2 } ∧
      m1 u = some (strconv.Itoa p) ∧ strconv.Atoi (strconv.Itoa p) = some p ∧
      m2 u = some (strconv.Itoa q) ∧ strconv.Atoi (strconv.Itoa q) = some q ∧
      (∀ w, w ≠ u → m1 w = m0 w) ∧ (∀ w, w ≠ u → m2 w = m0 w) := by
  have hpr := Atoi_range s p hp
  have hqr := Atoi_range t q hq
  refine ⟨rdb "users", (HSet none rdb "users" u (Arg.int p)).2 "users",
    (HSet none (HSet none rdb "users" u (Arg.int p)).2 "users" u (Arg.int q)).2 "users",
    rfl, ?_, ?_, ?_, Atoi_Itoa p hpr.1 hpr.2, ?_, Atoi_Itoa q hqr.1 hqr.2, ?_, ?_⟩
  · rw [updateLeaderboardHandler_ok rdb upd1 u s p hname1 hu hpts1 hp]; rfl
  · rw [updateLeaderboardHandler_ok rdb upd1 u s p hname1 hu hpts1 hp,
      updateLeaderboardHandler_ok _ upd2 u t q hname2 hu hpts2 hq]; rfl
  · exact HSet_none_same rdb "users" u (Arg.int p)
  · exact HSet_none_same _ "users" u (Arg.int q)
  · intro w hw; exact HSet_none_other_field rdb "users" u w (Arg.int p) hw
  · intro w hw
    rw [HSet_none_other_field _ "users" u w (Arg.int q) hw]
    exact HSet_none_other_field rdb "users" u w (Arg.int p) hw


/-- Witness of C8 with `p = 42` and `q = 7` for `alice` on the empty database. -/
theorem update_score_overwrites_witness :
    ∃ m0 m1 m2 : Hash,
      (getLeaderboardHandler none emptyRedis).1 = { status := StatusOK, body := Body.json m0 } ∧
      (getLeaderboardHandler none (updateLeaderboardHandler none emptyRedis
          (Except.ok (scoreBody "alice" (JsonValue.string "42")))).2).1
        = { status := StatusOK, body := Body.json m1 } ∧
      (getLeaderboardHandler none
          (updateLeaderboardHandler none (updateLeaderboardHandler none emptyRedis
              (Except.ok (scoreBody "alice" (JsonValue.string "42")))).2
            (Except.ok (scoreBody "alice" (JsonValue.string "7")))).2).1
        = { status := StatusOK, body := Body.json m2 } ∧
      m1 "alice" = some (strconv.Itoa 42) ∧ strconv.Atoi (strconv.Itoa 42) = some 42 ∧
      m2 "alice" = some (strconv.Itoa 7) ∧ strconv.Atoi (strconv.Itoa 7) = some 7 ∧
      (∀ w, w ≠ "alice" → m1 w = m0 w) ∧ (∀ w, w ≠ "alice" → m2 w = m0 w) :=
  update_score_overwrites emptyRedis (scoreBody "alice" (JsonValue.string "42"))
    (scoreBody "alice" (JsonValue.string "7")) "alice" "42" "7" 42 7
    (by decide) rfl rfl (by decide) rfl rfl (by decide)

/-- C9 as written fails: a score update whose `points` is the JSON number 42 is
rejected with 400 "Points must be an integer" and nothing is stored. -/
theorem numeric_points_rejected :
    (updateLeaderboardHandler none emptyRedis
        (Except.ok (scoreBody "alice" (JsonValue.number 42)))).1.status = 400 ∧
    (updateLeaderboardHandler none emptyRedis
        (Except.ok (scoreBody "alice" (JsonValue.number 42)))).1.body
      = Body.text "Points must be an integer\n" ∧
    (updateLeaderboardHandler none emptyRedis
        (Except.ok (scoreBody "alice" (JsonValue.number 42)))).2 "users" "alice" = none := by
  refine ⟨rfl, rfl, rfl⟩

/-- C9 amended: for a non-empty string username and a store whose write
succeeds, a score update is rejected with status 400 exactly when `points` is
not a JSON string that `Atoi` reads as an integer.  A `points` string read as
`p` is accepted and `p` is stored as its decimal text; anything else (a JSON
number such as 42 included) is rejected and the database is returned unchanged,
whatever the store would have answered. -/
theorem update_score_rejected_iff_not_integer_string (rdb : Redis) (upd : AnyMap) (u : String)
    (hname : upd "username" = some (JsonValue.string u)) (hu : u ≠ "") :
    ((updateLeaderboardHandler none rdb (Except.ok upd)).1.status = StatusBadRequest ↔
      ¬ ∃ s p, upd "points" = some (JsonValue.string s) ∧ strconv.Atoi s = some p) ∧
    (∀ s p, upd "points" = some (JsonValue.string s) → strconv.Atoi s = some p →
      (updateLeaderboardHandler none rdb (Except.ok upd)).1.status = StatusOK ∧
      (updateLeaderboardHandler none rdb (Except.ok upd)).2 "users" u = some (strconv.Itoa p)) ∧
    ((¬ ∃ s p, upd "points" = some (JsonValue.string s) ∧ strconv.Atoi s = some p) →
      ∀ fault, (updateLeaderboardHandler fault rdb (Except.ok upd)).1.status = StatusBadRequest ∧
        (updateLeaderboardHandler fault rdb (Except.ok upd)).2 = rdb) ∧
    (∀ x fault, upd "points" = some (JsonValue.number x) →
      updateLeaderboardHandler fault rdb (Except.ok upd)
        = (httpError "Points must be an integer" StatusBadRequest, rdb)) := by
  have accepted : ∀ s p, upd "points" = some (JsonValue.string s) → strconv.Atoi s = some p →
      (updateLeaderboardHandler none rdb (Except.ok upd)).1.status = StatusOK ∧
      (updateLeaderboardHandler none rdb (Except.ok upd)).2 "users" u = some (strconv.Itoa p) := by
    intro s p hpts hp
    rw [updateLeaderboardHandler_ok rdb upd u s p hname hu hpts hp]
    exact ⟨rfl, HSet_none_same rdb "users" u (Arg.int p)⟩
  have rejected : (¬ ∃ s p, upd "points" = some (JsonValue.string s) ∧ strconv.Atoi s = some p) →
      ∀ fault, (updateLeaderboardHandler fault rdb (Except.ok upd)).1.status = StatusBadRequest ∧
        (updateLeaderboardHandler fault rdb (Except.ok upd)).2 = rdb := by
    intro hno fault
    cases hpts : upd "points" with
    | none => simp [updateLeaderboardHandler, AnyMap.assertString, hname, hu, hpts, httpError]
    | some v =>
      cases v with
      | string s =>
        cases hp : strconv.Atoi s with
        | none => simp [updateLeaderboardHandler, AnyMap.assertString, hname, hu, hpts, hp, httpError]
        | some p => exact absurd ⟨s, p, hpts, hp⟩ hno
      | _ => simp [updateLeaderboardHandler, AnyMap.assertString, hname, hu, hpts, httpError]
  refine ⟨⟨?_, fun hno => (rejected hno none).1⟩, accepted, rejected, ?_⟩
  · rintro hbad ⟨s, p, hpts, hp⟩
    have hok := (accepted s p hpts hp).1
    rw [hok] at hbad
    exact absurd hbad (by decide)
  · intro x fault hpts
    simp [updateLeaderboardHandler, AnyMap.assertString, hname, hu, hpts]

/-- Witness of the amended C9: the string `"42"` for `alice` is accepted and
stored. -/
theorem update_score_rejected_iff_not_integer_string_witness :
    (updateLeaderboardHandler none emptyRedis
        (Except.ok (scoreBody "alice" (JsonValue.string "42")))).1.status = StatusOK ∧
    (updateLeaderboardHandler none emptyRedis
        (Except.ok (scoreBody "alice" (JsonValue.string "42")))).2 "users" "alice"
      = some (strconv.Itoa 42) :=
  (update_score_rejected_iff_not_integer_string emptyRedis
    (scoreBody "alice" (JsonValue.string "42")) "alice" rfl (by decide)).2.1 "42" 42 rfl (by decide)

/-- C10: splitting any string on `,` gives at least one piece, so no draw is ever
answered with the 400 "No cards left"; a draw on a session whose stored text
is empty (store answering read and write) answers 200 with the empty card name
and leaves the stored text empty. -/
theorem split_never_empty_so_no_cards_left_unreachable :
    (∀ s : String, 1 ≤ (strings.Split s ',').length) ∧
    (∀ (getFault setFault : Option String) (rdb : Redis) (query : Values),
      (drawCardHandler getFault setFault rdb query).1 ≠ httpError "No cards left" StatusBadRequest) ∧
    (∀ (rdb : Redis) (query : Values) (u : String),
      query.Get "username" = u → u ≠ "" → rdb "games" u = some "" →
      (drawCardHandler none none rdb query).1
          = { status := StatusOK, body := Body.text ("Card drawn: " ++ "") } ∧
        (drawCardHandler none none rdb query).2 "games" u = some "") := by
  refine ⟨?_, ?_, ?_⟩
  · intro s
    have := Split_ne_nil s ','
    cases h : strings.Split s ',' with
    | nil => exact absurd h this
    | cons a t => simp
  · intro getFault setFault rdb query
    have hbody : ("Username is required" : String) ++ "\n" ≠ "No cards left" ++ "\n" := by decide
    unfold drawCardHandler
    simp only []
    split_ifs with hname
    · simp [httpError, hbody]
    · cases hget : HGet getFault rdb "games" (query.Get "username") with
      | nil => simp [httpError, StatusNotFound, StatusBadRequest]
      | err e => simp [httpError, StatusInternalServerError, StatusBadRequest]
      | ok deckString =>
        cases hsplit : strings.Split deckString ',' with
        | nil => exact absurd hsplit (Split_ne_nil deckString ',')
        | cons card deck =>
          cases setFault with
          | none => simp [hsplit, HSet, httpError, StatusOK, StatusBadRequest]
          | some e => simp [hsplit, HSet, httpError, StatusInternalServerError, StatusBadRequest]
  · intro rdb query u hq hu hdeck
    subst hq
    have hsplit : strings.Split "" ',' = [""] := by decide
    simp [drawCardHandler, hu, HGet, hdeck, hsplit, HSet, strings.Join, Arg.encode]

/-- Witness of C10: `alice` holds the empty text and draws. -/
theorem split_never_empty_so_no_cards_left_unreachable_witness :
    (drawCardHandler none none (HSet none emptyRedis "games" "alice" (Arg.str "")).2
        (userQuery "alice")).1
      = { status := StatusOK, body := Body.text ("Card drawn: " ++ "") } ∧
    (drawCardHandler none none (HSet none emptyRedis "games" "alice" (Arg.str "")).2
        (userQuery "alice")).2 "games" "alice" = some "" :=
  split_never_empty_so_no_cards_left_unreachable.2.2
    (HSet none emptyRedis "games" "alice" (Arg.str "")).2 (userQuery "alice") "alice"
    (by decide) (by decide) (by decide)

end Backend
